import Mathlib

/-!
Formal model of the proposal follow-up pipeline in `follow_up.py`:
the proposal scanner (`process_proposals`), the consolidated e-mail
dispatcher (`send_consolidated_emails`) and the spreadsheet state
updater (`update_excel_sheets`), together with theorems about their
eligibility, rendering, retry and persistence behaviour.
-/

namespace FollowUp

/-! ### String and numeric helpers modelling the Python primitives used. -/

def natDigitsAux (fuel n : Nat) : List Char :=
  match fuel with
  | 0 => []
  | f + 1 =>
    if n < 10 then [Char.ofNat (48 + n)]
    else natDigitsAux f (n / 10) ++ [Char.ofNat (48 + n % 10)]

def natToStr (n : Nat) : String := (natDigitsAux (n + 1) n).asString

def intToStr (i : Int) : String :=
  if i < 0 then "-" ++ natToStr i.natAbs else natToStr i.natAbs

/-- Python `str.strip()` on the character list. -/
def trimChars (l : List Char) : List Char :=
  ((l.dropWhile Char.isWhitespace).reverse.dropWhile Char.isWhitespace).reverse

def pyStrip (s : String) : String := (trimChars s.data).asString

def pyLower (s : String) : String := (s.data.map Char.toLower).asString

def pyUpper (s : String) : String := (s.data.map Char.toUpper).asString

/-- Python `c in s` for a single character. -/
def charIn (c : Char) (s : String) : Bool := s.data.contains c

/-- Python `str.split()` (split on whitespace runs, discarding empties). -/
def splitWsAux : List Char → List Char → List String
  | [], acc => if acc.isEmpty then [] else [acc.reverse.asString]
  | c :: cs, acc =>
    if c.isWhitespace then
      if acc.isEmpty then splitWsAux cs [] else acc.reverse.asString :: splitWsAux cs []
    else splitWsAux cs (c :: acc)

def pySplitWs (s : String) : List String := splitWsAux s.data []

def splitOnChar (c : Char) : List Char → List (List Char)
  | [] => [[]]
  | x :: xs =>
    let r := splitOnChar c xs
    if x = c then [] :: r
    else
      match r with
      | [] => [[x]]
      | h :: t => (x :: h) :: t

def digitsVal (l : List Char) : Nat :=
  l.foldl (fun a c => a * 10 + (c.toNat - 48)) 0

def digitsToNat? (l : List Char) : Option Nat :=
  if !l.isEmpty && l.all Char.isDigit then some (digitsVal l) else none

/-- Python `str.replace` over character lists, with fuel bounded by the list length. -/
def replaceAux (pat rep : List Char) : Nat → List Char → List Char
  | 0, l => l
  | _ + 1, [] => []
  | fuel + 1, c :: rest =>
    if pat.isPrefixOf (c :: rest) then rep ++ replaceAux pat rep fuel ((c :: rest).drop pat.length)
    else c :: replaceAux pat rep fuel rest

/-- Model of substituting one named placeholder in a Python format template. -/
def pyReplace (s pat rep : String) : String :=
  (replaceAux pat.data rep.data s.data.length s.data).asString

/-! ### Calendar arithmetic (dates as days since 1970-01-01). -/

def daysFromCivil (y m d : Int) : Int :=
  let yy := if m ≤ 2 then y - 1 else y
  let era := Int.fdiv yy 400
  let yoe := yy - era * 400
  let mp := if 2 < m then m - 3 else m + 9
  let doy := Int.fdiv (153 * mp + 2) 5 + d - 1
  let doe := yoe * 365 + Int.fdiv yoe 4 - Int.fdiv yoe 100 + doy
  era * 146097 + doe - 719468

def civilFromDays (z : Int) : Int × Int × Int :=
  let z2 := z + 719468
  let era := Int.fdiv z2 146097
  let doe := z2 - era * 146097
  let yoe := Int.fdiv (doe - Int.fdiv doe 1460 + Int.fdiv doe 36524 - Int.fdiv doe 146096) 365
  let y := yoe + era * 400
  let doy := doe - (365 * yoe + Int.fdiv yoe 4 - Int.fdiv yoe 100)
  let mp := Int.fdiv (5 * doy + 2) 153
  let d := doy - Int.fdiv (153 * mp + 2) 5 + 1
  let m := if mp < 10 then mp + 3 else mp - 9
  (if m ≤ 2 then y + 1 else y, m, d)

def yearOf (z : Int) : Int := (civilFromDays z).1

def isLeap (y : Int) : Bool := (y % 4 == 0 && y % 100 != 0) || y % 400 == 0

def daysInMonth (y m : Int) : Int :=
  if m = 2 then (if isLeap y then 29 else 28)
  else if m = 4 ∨ m = 6 ∨ m = 9 ∨ m = 11 then 30
  else 31

def pad2 (n : Int) : String := if n < 10 then "0" ++ intToStr n else intToStr n

def pad4 (n : Int) : String :=
  let s := intToStr n
  if 0 ≤ n ∧ s.length < 4 then (List.replicate (4 - s.length) '0').asString ++ s else s

/-- Model of `datetime.strftime('%m-%d-%Y')`. -/
def strftimeMDY (z : Int) : String :=
  match civilFromDays z with
  | (y, m, d) => pad2 m ++ "-" ++ pad2 d ++ "-" ++ pad4 y

/-- Model of `pd.to_datetime(str, errors='coerce')` on an ISO `YYYY-MM-DD` string. -/
def parseISODate (s : String) : Option Int :=
  match splitOnChar '-' (trimChars s.data) with
  | [ys, ms, ds] =>
    match digitsToNat? ys, digitsToNat? ms, digitsToNat? ds with
    | some y, some m, some d =>
      if 1 ≤ m ∧ m ≤ 12 ∧ 1 ≤ d ∧ (d : Int) ≤ daysInMonth y m then
        some (daysFromCivil y m d)
      else none
    | _, _, _ => none
  | _ => none

/-! ### Spreadsheet cell values and the Python coercions applied to them. -/

/-- A raw spreadsheet cell as seen by pandas: a number, a string, or NaN. -/
inductive Cell where
  | num (q : ℚ)
  | str (s : String)
  | blank
deriving DecidableEq

/-- Model of `pd.notna`. -/
def pyNotna : Cell → Bool
  | .blank => false
  | _ => true

/-- Python truthiness of the cell value (NaN is truthy, `""` and `0` are not). -/
def pyTruthy : Cell → Bool
  | .num q => if q = 0 then false else true
  | .str s => if s = "" then false else true
  | .blank => true

/-- Digits of a fractional part `n / d` (invariant `n < d`), fuel bounded. -/
def fracDigits (fuel : Nat) (n d : Nat) : String :=
  match fuel with
  | 0 => ""
  | f + 1 => if n = 0 then "" else natToStr (n * 10 / d) ++ fracDigits f (n * 10 % d) d

/-- Python `str()` applied to a cell value. -/
def pyStr : Cell → String
  | .str s => s
  | .blank => "nan"
  | .num q =>
    if q.den = 1 then intToStr q.num
    else
      (if q < 0 then "-" else "") ++ natToStr (q.num.natAbs / q.den) ++ "." ++
        fracDigits 30 (q.num.natAbs % q.den) q.den

/-- Python `int()` on a string: optional sign around a digit run, else ValueError. -/
def pyIntOfStr? (s : String) : Option Int :=
  match trimChars s.data with
  | '+' :: r => (digitsToNat? r).map Int.ofNat
  | '-' :: r => (digitsToNat? r).map (fun n => -(n : Int))
  | r => (digitsToNat? r).map Int.ofNat

/-- Python `int()` on a cell (`none` models a raised ValueError, e.g. on NaN). -/
def pyInt? : Cell → Option Int
  | .num q => some (Int.tdiv q.num (q.den : Int))
  | .str s => pyIntOfStr? s
  | .blank => none

def parseMantissa? (l : List Char) : Option ℚ :=
  match splitOnChar '.' l with
  | [ip] => (digitsToNat? ip).map (fun n => (n : ℚ))
  | [ip, fp] =>
    if (ip.isEmpty && fp.isEmpty) || !(ip.all Char.isDigit) || !(fp.all Char.isDigit) then none
    else some ((digitsVal ip : ℚ) + (digitsVal fp : ℚ) / (10 : ℚ) ^ fp.length)
  | _ => none

def parseExp? (l : List Char) : Option Int :=
  match l with
  | '+' :: r => (digitsToNat? r).map Int.ofNat
  | '-' :: r => (digitsToNat? r).map (fun n => -(n : Int))
  | r => (digitsToNat? r).map Int.ofNat

/-- Python `float()` on a string: signed decimal with optional exponent. -/
def pyFloatOfStr? (s : String) : Option ℚ :=
  let t := (trimChars s.data).map Char.toLower
  let (sgn, body) :=
    match t with
    | '+' :: r => ((1 : ℚ), r)
    | '-' :: r => ((-1 : ℚ), r)
    | r => ((1 : ℚ), r)
  match splitOnChar 'e' body with
  | [m] => (parseMantissa? m).map (fun q => sgn * q)
  | [m, e] =>
    match parseMantissa? m, parseExp? e with
    | some q, some ex =>
      some (sgn * (if 0 ≤ ex then q * (10 : ℚ) ^ ex.toNat else q / (10 : ℚ) ^ (-ex).toNat))
    | _, _ => none
  | _ => none

/-- Python `float()` on a cell (`none` models a raised ValueError/TypeError). -/
def pyFloat? : Cell → Option ℚ
  | .num q => some q
  | .str s => pyFloatOfStr? s
  | .blank => none

/-! ### Dates as stored in cells. -/

def ratFloor (q : ℚ) : Int := Int.fdiv q.num (q.den : Int)

/-- The constant `EXCEL_DATE_OFFSET = datetime.datetime(1899, 12, 30)` as a day number. -/
def excelDateOffsetDays : Int := daysFromCivil 1899 12 30

def nsPerDay : Int := 86400000000000

/-- Model of `excel_date_to_datetime`: positive numbers are Excel serial dates, other
numbers go through `pd.to_datetime` (nanoseconds since the 1970 epoch), strings
are parsed (`errors='coerce'`, so failures give `none` i.e. NaT). -/
def excelDateToDatetime : Cell → Option Int
  | .num q =>
    if 0 < q then some (excelDateOffsetDays + ratFloor q)
    else some (Int.fdiv q.num ((q.den : Int) * nsPerDay))
  | .str s => parseISODate s
  | .blank => none

/-! ### Phase 1 — the proposal scanner (`process_proposals`). -/

/-- The two configured day thresholds (`DaysFirstFollowUp`, `DaysSubsequentFollowUps`). -/
structure ScanThresholds where
  daysFirstFollowUp : Int
  daysSubsequentFollowUps : Int
deriving DecidableEq

/-- One spreadsheet row restricted to the required logical columns. -/
structure Row where
  dateProposalSubmitted : Cell
  lastCorrespondence : Cell
  contactEmail : Cell
  contactName : Cell
  projectName : Cell
  value : Cell
  won : Cell
  lost : Cell
  reBid : Cell
  followUpStage : Cell
deriving DecidableEq

/-- The `proposal_details` dictionary built for a qualifying row. -/
structure Candidate where
  projectName : String
  submissionDateStr : String
  valueStr : String
  contactFirstName : String
  rowIndexDf : Nat
  sheetName : String
  workbookPath : String
  newFollowUpStage : Int
  emailSnippetKey : Int
  lastCorrColDfIdx : Nat
  followUpStageColDfIdx : Nat
deriving DecidableEq, Inhabited

/-- What happens to one scanned row; the skip constructors record the logged
reason, `rowError` is the catch-all `except` around the row body. -/
inductive RowOutcome where
  | candidate (email : String) (c : Candidate)
  | skipInvalidDate
  | skipInvalidEmail
  | skipDisposition
  | skipNotDue
  | skipStageAnomaly (stage : Int)
  | rowError
deriving DecidableEq

/-- Line 186: `str(row.get(ContactEmail, "") or "").strip().lower()`. -/
def normalizedEmail (c : Cell) : String :=
  pyLower (pyStrip (pyStr (if pyTruthy c then c else .str "")))

/-- The line-187 email validity test. -/
def emailUsable (c : Cell) : Bool :=
  let e := normalizedEmail c
  !(e == "") && charIn '@' e && charIn '.' e

/-- Lines 191-193: `str(row.get(flag, "")).strip().upper() == "X"`. -/
def isX (c : Cell) : Bool := pyUpper (pyStrip (pyStr c)) == "X"

def dispositionSet (r : Row) : Bool := isX r.won || isX r.lost || isX r.reBid

/-- The parsed `last_correspondence_date` (lines 197-204). -/
def lcDateOf (r : Row) : Option Int :=
  if pyNotna r.lastCorrespondence then excelDateToDatetime r.lastCorrespondence else none

/-- Line 233: `contact_name_full.split()[0] if contact_name_full else "there"`. -/
def firstNameOf (c : Cell) : String :=
  let full := pyStrip (pyStr c)
  if full == "" then "there" else (pySplitWs full).headD ""

/-- Round to nearest integer, ties to even (Python float formatting). -/
def roundHalfEven (x : ℚ) : Int :=
  let f := ratFloor x
  let r := x - (f : ℚ)
  if r < 1 / 2 then f
  else if 1 / 2 < r then f + 1
  else if f % 2 = 0 then f else f + 1

/-- Thousands separators for a digit string. -/
def commaRev : List Char → List Char
  | c1 :: c2 :: c3 :: c4 :: rest => c1 :: c2 :: c3 :: ',' :: commaRev (c4 :: rest)
  | l => l

def commaGroup (s : String) : String := (commaRev s.data.reverse).reverse.asString

def twoDigits (k : Nat) : String := (if k < 10 then "0" else "") ++ natToStr k

/-- Python `f"{x:,.2f}"`. -/
def formatComma2 (q : ℚ) : String :=
  let cents := roundHalfEven (q * 100)
  (if cents < 0 then "-" else "") ++
    commaGroup (natToStr (cents.natAbs / 100)) ++ "." ++ twoDigits (cents.natAbs % 100)

/-- Lines 235-241: the monetary value string, with the `except` fallback to the
raw stripped string when `float()` raises. -/
def valueStrOf (c : Cell) : String :=
  if pyNotna c && !(pyStrip (pyStr c) == "") then
    match pyFloat? c with
    | some q => formatComma2 q
    | none => pyStrip (pyStr c)
  else ""

/-- The `proposal_details` record (lines 243-255). -/
def mkCandidate (r : Row) (wbPath sheetName : String) (rowIdx lcIdx stIdx : Nat)
    (sd : Int) (stage : Int) (tIdx : Int) : Candidate :=
  { projectName := pyStr r.projectName
    submissionDateStr := strftimeMDY sd
    valueStr := valueStrOf r.value
    contactFirstName := firstNameOf r.contactName
    rowIndexDf := rowIdx
    sheetName := sheetName
    workbookPath := wbPath
    newFollowUpStage := stage + 1
    emailSnippetKey := tIdx
    lastCorrColDfIdx := lcIdx
    followUpStageColDfIdx := stIdx }

/-- The body of the per-row loop of `process_proposals` (lines 176-260). -/
def processRow (cfg : ScanThresholds) (today : Int) (wbPath sheetName : String)
    (rowIdx lcIdx stIdx : Nat) (r : Row) : RowOutcome :=
  match excelDateToDatetime r.dateProposalSubmitted with
  | none => .skipInvalidDate
  | some sd =>
    if yearOf sd < 2000 then .skipInvalidDate
    else if !emailUsable r.contactEmail then .skipInvalidEmail
    else if dispositionSet r then .skipDisposition
    else
      match pyInt? r.followUpStage with
      | none => .rowError
      | some stage =>
        if stage = 0 then
          if cfg.daysFirstFollowUp ≤ today - (lcDateOf r).getD sd then
            .candidate (normalizedEmail r.contactEmail)
              (mkCandidate r wbPath sheetName rowIdx lcIdx stIdx sd stage 0)
          else .skipNotDue
        else if 0 < stage then
          match lcDateOf r with
          | some l =>
            if cfg.daysSubsequentFollowUps ≤ today - l then
              .candidate (normalizedEmail r.contactEmail)
                (mkCandidate r wbPath sheetName rowIdx lcIdx stIdx sd stage
                  (if stage = 1 then 1 else 2))
            else .skipNotDue
          | none => .skipStageAnomaly stage
        else .skipNotDue

/-- Does the outcome emit a candidate? -/
def RowOutcome.isCand : RowOutcome → Bool
  | .candidate _ _ => true
  | _ => false

def RowOutcome.valueStr? : RowOutcome → Option String
  | .candidate _ c => some c.valueStr
  | _ => none

/-! ### Sheets, stores, and the scan over them. -/

/-- One month sheet of a workbook. `missingCols` is the set of required
columns absent from the loaded frame (line 158); `lastCorrIdx`/`stageIdx` are
the `get_loc` column positions (lines 167-171). -/
structure Sheet where
  name : String
  missingCols : List String
  lastCorrIdx : Nat
  stageIdx : Nat
  rows : List Row
deriving DecidableEq

/-- One yearly workbook that was successfully read. -/
structure Store where
  path : String
  sheets : List Sheet
deriving DecidableEq

/-- The scanner's observable behaviour: log-worthy events in order. -/
inductive ScanEvent where
  | sheetNotValidMonth (sheet : String)
  | sheetMissingCols (sheet : String) (missing : List String)
  | row (sheet : String) (idx : Nat) (o : RowOutcome)
deriving DecidableEq

/-- The `df.iterrows()` loop starting at row index `k`. -/
def scanRowsFrom (cfg : ScanThresholds) (today : Int) (wbPath sheetName : String)
    (lcIdx stIdx : Nat) : Nat → List Row → List ScanEvent
  | _, [] => []
  | k, r :: rs =>
    .row sheetName k (processRow cfg today wbPath sheetName k lcIdx stIdx r) ::
      scanRowsFrom cfg today wbPath sheetName lcIdx stIdx (k + 1) rs

def scanSheet (cfg : ScanThresholds) (today : Int) (wbPath : String) (s : Sheet) :
    List ScanEvent :=
  scanRowsFrom cfg today wbPath s.name s.lastCorrIdx s.stageIdx 0 s.rows

/-- The per-sheet loop of `process_proposals` (lines 150-260) over one store:
sheets not in `ValidMonths` and sheets with missing required columns are
skipped with a log entry, everything else is scanned row by row. -/
def scanStore (cfg : ScanThresholds) (today : Int) (validMonths : List String)
    (st : Store) : List ScanEvent :=
  st.sheets.flatMap (fun s =>
    if ¬ s.name ∈ validMonths then [.sheetNotValidMonth s.name]
    else if s.missingCols ≠ [] then [.sheetMissingCols s.name s.missingCols]
    else scanSheet cfg today st.path s)

/-- The qualifying follow-ups (in discovery order) among the scan events. -/
def candidatesOfEvents (evs : List ScanEvent) : List (String × Candidate) :=
  evs.filterMap (fun e =>
    match e with
    | .row _ _ (.candidate em c) => some (em, c)
    | _ => none)

/-- Model of `grouped_follow_ups.setdefault(email, []).append(details)` over a run:
group a keyed list preserving key discovery order and per-key order. -/
def insertGrouped {α : Type} (key : String) (x : α) :
    List (String × List α) → List (String × List α)
  | [] => [(key, [x])]
  | (k, xs) :: rest =>
    if k = key then (k, xs ++ [x]) :: rest else (k, xs) :: insertGrouped key x rest

def groupByKey {α : Type} (key : α → String) (l : List α) : List (String × List α) :=
  l.foldl (fun acc x => insertGrouped (key x) x acc) []

/-- Phase 1 entry point: scan every store and group candidates by email. -/
def processProposals (cfg : ScanThresholds) (today : Int) (validMonths : List String)
    (stores : List Store) : List (String × List Candidate) :=
  (groupByKey Prod.fst
      (candidatesOfEvents (stores.flatMap (scanStore cfg today validMonths)))).map
    (fun g => (g.1, g.2.map Prod.snd))

/-! ### Phase 2 — the dispatcher (`send_consolidated_emails`). -/

/-- Relevant `[Settings]` entries shared by phases 2 and 3. -/
structure Settings where
  dryRun : Bool
  maxAttempts : Nat
  backupExcel : Bool
deriving DecidableEq

/-- The configured templates (`[EmailBody]`, `[EmailSubjects]`, `[EmailSnippets]`),
with `snippet k` standing for `snippet_cfg.get(f"Snippet_{k}", ...)`. -/
structure EmailCfg where
  greeting : String
  intro : String
  projectListStart : String
  projectListItem : String
  projectListEnd : String
  closing : String
  valueFormat : String
  defaultSignatureFallback : String
  subjSingle : String
  subjTwo : String
  subjMultiple : String
  snippet : Int → String

/-- Observable actions of the dispatcher, in order. -/
inductive DispatchEvent where
  | outlookUnavailable
  | noFollowUps
  | wouldSend (email subject : String)
  | wouldSendBody (email body : String)
  | cannotSendNoOutlook (email : String)
  | sendAttempt (email : String) (k : Nat) (ok : Bool)
  | sent (email : String)
  | failedAll (email : String)
deriving DecidableEq

def DispatchEvent.isTransportCall : DispatchEvent → Bool
  | .sendAttempt _ _ _ => true
  | _ => false

/-- Subject selection by project count (lines 291-296). -/
def renderSubject (ecfg : EmailCfg) (names : List String) : String :=
  match names with
  | [n] => pyReplace ecfg.subjSingle "{project_name}" n
  | [n1, n2] =>
    pyReplace (pyReplace ecfg.subjTwo "{project_name_1}" n1) "{project_name_2}" n2
  | n :: _ :: _ :: _ => pyReplace ecfg.subjMultiple "{first_project_name}" n
  | [] => ecfg.subjMultiple

def renderGreeting (ecfg : EmailCfg) (firstName : String) : String :=
  pyReplace ecfg.greeting "{contact_first_name}" firstName

/-- One `<li>` item (lines 302-311). -/
def renderItem (ecfg : EmailCfg) (p : Candidate) : String :=
  let snippetText := ecfg.snippet p.emailSnippetKey
  let valueInfo :=
    if p.valueStr == "" then "" else pyReplace ecfg.valueFormat "{value_str}" p.valueStr
  pyReplace
    (pyReplace
      (pyReplace (pyReplace ecfg.projectListItem "{project_name}" p.projectName)
        "{submission_date_str}" p.submissionDateStr)
      "{value_info}" valueInfo)
    "{snippet_text}" snippetText

/-- Everything after the greeting (lines 299-318). -/
def renderBodyTail (ecfg : EmailCfg) (sig : String) (ps : List Candidate) : String :=
  ecfg.intro ++ ecfg.projectListStart ++ String.join (ps.map (renderItem ecfg)) ++
    ecfg.projectListEnd ++ ecfg.closing ++
    (if sig == "" then ecfg.defaultSignatureFallback else "<br><br>" ++ sig)

/-- The whole HTML body for one recipient bucket. -/
def renderBody (ecfg : EmailCfg) (sig : String) (ps : List Candidate) : String :=
  renderGreeting ecfg ((ps.headD default).contactFirstName) ++ renderBodyTail ecfg sig ps

/-- The retry loop (lines 333-351) over the given attempt numbers: stop at the
first success; report whether any attempt succeeded. -/
def sendAttempts (transport : String → Nat → Bool) (email : String) :
    List Nat → Bool × List DispatchEvent
  | [] => (false, [])
  | k :: ks =>
    if transport email k then (true, [.sendAttempt email k true])
    else
      let r := sendAttempts transport email ks
      (r.1, .sendAttempt email k false :: r.2)

def attemptNumbers (maxAttempts : Nat) : List Nat := (List.range maxAttempts).map (· + 1)

/-- The per-recipient body of the dispatch loop (lines 287-355). -/
def dispatchBucket (s : Settings) (ecfg : EmailCfg) (sig : String) (outlookOk : Bool)
    (transport : String → Nat → Bool) (email : String) (ps : List Candidate) :
    List Candidate × List DispatchEvent :=
  if s.dryRun then
    (ps,
      [.wouldSend email (renderSubject ecfg (ps.map (·.projectName))),
        .wouldSendBody email (renderBody ecfg sig ps)])
  else if !outlookOk then ([], [.cannotSendNoOutlook email])
  else if (sendAttempts transport email (attemptNumbers s.maxAttempts)).1 then
    (ps, (sendAttempts transport email (attemptNumbers s.maxAttempts)).2 ++ [.sent email])
  else ([], (sendAttempts transport email (attemptNumbers s.maxAttempts)).2 ++ [.failedAll email])

/-- Model of `send_consolidated_emails`: returns `successful_sends_for_excel_update`
together with the observable events. -/
def sendConsolidatedEmails (s : Settings) (ecfg : EmailCfg) (sig : String)
    (outlookOk : Bool) (transport : String → Nat → Bool)
    (buckets : List (String × List Candidate)) : List Candidate × List DispatchEvent :=
  if !outlookOk && !s.dryRun then ([], [.outlookUnavailable])
  else if buckets.isEmpty then ([], [.noFollowUps])
  else
    ((buckets.map (fun b => (dispatchBucket s ecfg sig outlookOk transport b.1 b.2).1)).flatten,
      (buckets.map (fun b => (dispatchBucket s ecfg sig outlookOk transport b.1 b.2).2)).flatten)

/-! ### Phase 3 — the state updater (`update_excel_sheets`). -/

inductive WriteVal where
  | dateStr (s : String)
  | stageVal (n : Int)
deriving DecidableEq

/-- Effects performed against the file system / workbooks. -/
inductive StoreOp where
  | backup (path : String)
  | write (path sheet : String) (row col : Nat) (v : WriteVal)
  | save (path : String)
deriving DecidableEq

inductive UpdateEvent where
  | noProposals
  | wouldUpdate (path sheet : String) (row : Nat) (project : String) (newStage : Int)
  | openFailed (path : String)
  | sheetNotFound (path sheet : String)
  | saved (path : String)
deriving DecidableEq

/-- The environment the updater runs against: which workbooks exist, open and
save cleanly, and which sheets they contain. -/
structure StoreEnv where
  pathExists : String → Bool
  openable : String → Bool
  hasSheet : String → String → Bool

def insertSorted (s : String) : List String → List String
  | [] => [s]
  | t :: ts => if s ≤ t then s :: t :: ts else t :: insertSorted s ts

def sortStrings (l : List String) : List String := l.foldr insertSorted []

/-- Model of `pd.DataFrame(...).groupby('sheet_name')`: groups keyed by sheet name in
sorted key order. -/
def sheetGroups (ps : List Candidate) : List (String × List Candidate) :=
  (sortStrings (ps.map (·.sheetName)).dedup).map
    (fun sh => (sh, ps.filter (fun p => p.sheetName == sh)))

/-- The two cell writes for one updated proposal (lines 397-402). -/
def itemWrites (today : Int) (wb : String) (p : Candidate) : List StoreOp :=
  [.write wb p.sheetName (p.rowIndexDf + 2) (p.lastCorrColDfIdx + 1)
      (.dateStr (strftimeMDY today)),
    .write wb p.sheetName (p.rowIndexDf + 2) (p.followUpStageColDfIdx + 1)
      (.stageVal p.newFollowUpStage)]

/-- The `shutil.copy2` backup guarded by the backup toggle and `os.path.exists` (lines
383-386). -/
def backupOps (s : Settings) (env : StoreEnv) (wb : String) : List StoreOp :=
  if s.backupExcel && env.pathExists wb then [.backup wb] else []

/-- The cell writes over the sheet groups, skipping missing sheets. -/
def sheetWriteOps (env : StoreEnv) (today : Int) (wb : String)
    (groups : List (String × List Candidate)) : List StoreOp :=
  groups.flatMap (fun g =>
    if env.hasSheet wb g.1 then g.2.flatMap (itemWrites today wb) else [])

def sheetMissEvents (env : StoreEnv) (wb : String)
    (groups : List (String × List Candidate)) : List UpdateEvent :=
  groups.flatMap (fun g =>
    if env.hasSheet wb g.1 then [] else [UpdateEvent.sheetNotFound wb g.1])

/-- The per-workbook body of the update loop (lines 373-417). -/
def workbookRun (s : Settings) (env : StoreEnv) (today : Int) (wb : String)
    (ps : List Candidate) : List StoreOp × List UpdateEvent :=
  if s.dryRun then
    ([],
      ps.map (fun p =>
        .wouldUpdate wb p.sheetName (p.rowIndexDf + 2) p.projectName p.newFollowUpStage))
  else if !env.openable wb then (backupOps s env wb, [.openFailed wb])
  else
    (backupOps s env wb ++ sheetWriteOps env today wb (sheetGroups ps) ++ [.save wb],
      sheetMissEvents env wb (sheetGroups ps) ++ [.saved wb])

/-- Model of `update_excel_sheets`: the performed store operations and logged events. -/
def updateExcelSheets (s : Settings) (env : StoreEnv) (updates : List Candidate)
    (today : Int) : List StoreOp × List UpdateEvent :=
  if updates.isEmpty then ([], [.noProposals])
  else
    (((groupByKey (fun p => p.workbookPath) updates).map
        (fun g => (workbookRun s env today g.1 g.2).1)).flatten,
      ((groupByKey (fun p => p.workbookPath) updates).map
        (fun g => (workbookRun s env today g.1 g.2).2)).flatten)

/-- The write operations in `ops` that target candidate `p`'s source row. -/
def writesAt (ops : List StoreOp) (p : Candidate) : List StoreOp :=
  ops.filter (fun op =>
    match op with
    | .write pth sh row _ _ =>
      pth == p.workbookPath && sh == p.sheetName && row == p.rowIndexDf + 2
    | _ => false)

/-! ### Concrete instances used to exercise the model. -/

def exTh : ScanThresholds := ⟨7, 14⟩

/-- 2024-01-01 as a day number. -/
def exToday : Int := 19723

/-- A stage-0 row submitted 2017-09-22 (Excel serial 43000), no flags. -/
def baseRow : Row :=
  { dateProposalSubmitted := .num 43000
    lastCorrespondence := .blank
    contactEmail := .str "Jane.Doe@Example.com"
    contactName := .str "Jane Doe"
    projectName := .str "Bridge"
    value := .blank
    won := .blank
    lost := .blank
    reBid := .blank
    followUpStage := .num 0 }

/-- Stage 4 with a last correspondence on 2023-03-15 (serial 45000). -/
def stage4Row : Row := { baseRow with followUpStage := .num 4, lastCorrespondence := .num 45000 }

def stage2NoLcRow : Row := { baseRow with followUpStage := .num 2 }

def blankStageRow : Row := { baseRow with followUpStage := .blank }

def noDotEmailRow : Row := { baseRow with contactEmail := .str "a@b" }

def tbdValueRow : Row := { baseRow with value := .str "TBD" }

def noNameRow : Row := { baseRow with contactName := .str "   " }

/-- The candidate scanned from `stage4Row`. -/
def cand45 : Candidate :=
  { projectName := "Bridge"
    submissionDateStr := "09-22-2017"
    valueStr := ""
    contactFirstName := "Jane"
    rowIndexDf := 0
    sheetName := "Feb"
    workbookPath := "wb"
    newFollowUpStage := 5
    emailSnippetKey := 2
    lastCorrColDfIdx := 1
    followUpStageColDfIdx := 9 }

def goodSheet : Sheet :=
  { name := "Feb", missingCols := [], lastCorrIdx := 1, stageIdx := 9, rows := [baseRow] }

/-- A sheet whose frame is missing the required `Value` column. -/
def badSheet : Sheet :=
  { name := "Jan", missingCols := ["Value"], lastCorrIdx := 0, stageIdx := 0, rows := [] }

/-- A store whose first sheet has missing columns and whose second is fine. -/
def mixedStore : Store := { path := "wb", sheets := [badSheet, goodSheet] }

def exMonths : List String := ["Jan", "Feb"]

def exEmailCfg : EmailCfg :=
  { greeting := "<p>Hi {contact_first_name},</p>"
    intro := "<p>Following up on proposals:</p>"
    projectListStart := "<ul>"
    projectListItem :=
      "<li><strong>{project_name}</strong> ({submission_date_str}{value_info})<br/><em>{snippet_text}</em></li>"
    projectListEnd := "</ul>"
    closing := "<p>Let us know if we can help.</p>"
    valueFormat := ", value: ${value_str}"
    defaultSignatureFallback := "<br><br>Best regards,"
    subjSingle := "Follow-up on {project_name}"
    subjTwo := "Follow-up on {project_name_1} and {project_name_2}"
    subjMultiple := "Follow-up on {first_project_name} & others"
    snippet := fun k => if k = 0 then "first ping" else if k = 1 then "second ping" else "later ping" }

def liveS : Settings := ⟨false, 3, true⟩

def dryS : Settings := ⟨true, 3, true⟩

def candA : Candidate :=
  { cand45 with projectName := "Bridge", workbookPath := "wbA", contactFirstName := "Alice" }

def candB : Candidate :=
  { cand45 with
    projectName := "Tower"
    workbookPath := "wbB"
    rowIndexDf := 3
    contactFirstName := "Bob" }

def bucketsAB : List (String × List Candidate) :=
  [("alice@x.com", [candA]), ("bob@y.com", [candB])]

/-- A transport that only ever delivers to Bob. -/
def transportBOnly : String → Nat → Bool := fun e _ => e == "bob@y.com"

def transportNone : String → Nat → Bool := fun _ _ => false

/-- An environment where every workbook exists, opens and has every sheet. -/
def allEnv : StoreEnv := ⟨fun _ => true, fun _ => true, fun _ _ => true⟩

/-! ### Helper lemmas. -/

/-- Anatomy of an emitted candidate: the dates and stage parsed, the e-mail key,
and every field of the built record, including the saturating snippet index. -/
theorem processRow_candidate_spec (cfg : ScanThresholds) (today : Int)
    (wbPath sheetName : String) (rowIdx lcIdx stIdx : Nat) (r : Row)
    (em : String) (c : Candidate)
    (h : processRow cfg today wbPath sheetName rowIdx lcIdx stIdx r = .candidate em c) :
    ∃ sd stage, excelDateToDatetime r.dateProposalSubmitted = some sd ∧
      pyInt? r.followUpStage = some stage ∧
      em = normalizedEmail r.contactEmail ∧
      c = mkCandidate r wbPath sheetName rowIdx lcIdx stIdx sd stage
            (if stage = 0 then 0 else if stage = 1 then 1 else 2) := by
  unfold processRow at h
  split at h
  · cases h
  next sd hsd =>
    split at h
    · cases h
    split at h
    · cases h
    split at h
    · cases h
    split at h
    · cases h
    next stage hstage =>
      by_cases h0 : stage = 0
      · rw [if_pos h0] at h
        by_cases hth : cfg.daysFirstFollowUp ≤ today - (lcDateOf r).getD sd
        · rw [if_pos hth] at h
          injection h with h1 h2
          exact ⟨sd, stage, hsd, hstage, h1.symm, by simp [h0, ← h2]⟩
        · rw [if_neg hth] at h; cases h
      · rw [if_neg h0] at h
        by_cases hpos : 0 < stage
        · rw [if_pos hpos] at h
          rcases hlc : lcDateOf r with _ | l
          · simp only [hlc] at h; cases h
          · simp only [hlc] at h
            by_cases hth : cfg.daysSubsequentFollowUps ≤ today - l
            · rw [if_pos hth] at h
              injection h with h1 h2
              exact ⟨sd, stage, hsd, hstage, h1.symm, by simp [h0, ← h2]⟩
            · rw [if_neg hth] at h; cases h
        · rw [if_neg hpos] at h; cases h

theorem mem_insertGrouped_sound {α : Type} (key0 : String) (x : α) :
    ∀ (acc : List (String × List α)) (g : String × List α) (y : α),
      g ∈ insertGrouped key0 x acc → y ∈ g.2 →
      (∃ g2 ∈ acc, y ∈ g2.2 ∧ g2.1 = g.1) ∨ (y = x ∧ g.1 = key0)
  | [], g, y, hg, hy => by
    simp only [insertGrouped, List.mem_singleton] at hg
    subst hg
    simp only [List.mem_singleton] at hy
    exact Or.inr ⟨hy, rfl⟩
  | (k, xs) :: rest, g, y, hg, hy => by
    by_cases hk : k = key0
    · rw [insertGrouped, if_pos hk] at hg
      rcases List.mem_cons.mp hg with h | h
      · subst h
        rcases List.mem_append.mp hy with h2 | h2
        · exact Or.inl ⟨(k, xs), List.mem_cons_self _ _, h2, rfl⟩
        · simp only [List.mem_singleton] at h2
          exact Or.inr ⟨h2, hk⟩
      · exact Or.inl ⟨g, List.mem_cons_of_mem _ h, hy, rfl⟩
    · rw [insertGrouped, if_neg hk] at hg
      rcases List.mem_cons.mp hg with h | h
      · subst h
        exact Or.inl ⟨(k, xs), List.mem_cons_self _ _, hy, rfl⟩
      · rcases mem_insertGrouped_sound key0 x rest g y h hy with h2 | h2
        · rcases h2 with ⟨g2, hg2, hy2, hk2⟩
          exact Or.inl ⟨g2, List.mem_cons_of_mem _ hg2, hy2, hk2⟩
        · exact Or.inr h2

theorem groupByKey_aux_sound {α : Type} (key : α → String) :
    ∀ (l : List α) (acc : List (String × List α)) (g : String × List α) (y : α),
      g ∈ l.foldl (fun a x => insertGrouped (key x) x a) acc → y ∈ g.2 →
      (∃ g2 ∈ acc, y ∈ g2.2 ∧ g2.1 = g.1) ∨ (y ∈ l ∧ key y = g.1)
  | [], _, g, y, hg, hy => Or.inl ⟨g, hg, hy, rfl⟩
  | x :: xs, acc, g, y, hg, hy => by
    rw [List.foldl_cons] at hg
    rcases groupByKey_aux_sound key xs _ g y hg hy with h | h
    · rcases h with ⟨g2, hg2, hy2, he⟩
      rcases mem_insertGrouped_sound (key x) x acc g2 y hg2 hy2 with h2 | h2
      · rcases h2 with ⟨g3, hg3, hy3, he3⟩
        exact Or.inl ⟨g3, hg3, hy3, he3.trans he⟩
      · refine Or.inr ⟨?_, ?_⟩
        · rw [h2.1]; exact List.mem_cons_self _ _
        · rw [h2.1, ← he, ← h2.2]
    · exact Or.inr ⟨List.mem_cons_of_mem _ h.1, h.2⟩

/-- A member of any group produced by `groupByKey` is a member of the input
list, and its key is the group's key. -/
theorem groupByKey_sound {α : Type} (key : α → String) (l : List α)
    (g : String × List α) (y : α) (hg : g ∈ groupByKey key l) (hy : y ∈ g.2) :
    y ∈ l ∧ key y = g.1 := by
  rcases groupByKey_aux_sound key l [] g y hg hy with h | h
  · rcases h with ⟨g2, hg2, _, _⟩
    exact absurd hg2 (List.not_mem_nil _)
  · exact h

theorem mem_insertGrouped_self {α : Type} (key0 : String) (x : α) :
    ∀ acc : List (String × List α),
      ∃ g ∈ insertGrouped key0 x acc, x ∈ g.2 ∧ g.1 = key0
  | [] => ⟨(key0, [x]), by simp [insertGrouped], by simp, rfl⟩
  | (k, xs) :: rest => by
    by_cases hk : k = key0
    · refine ⟨(k, xs ++ [x]), ?_, ?_, hk⟩
      · rw [insertGrouped, if_pos hk]
        exact List.mem_cons_self _ _
      · simp
    · rcases mem_insertGrouped_self key0 x rest with ⟨g, hg, hx, he⟩
      refine ⟨g, ?_, hx, he⟩
      rw [insertGrouped, if_neg hk]
      exact List.mem_cons_of_mem _ hg

theorem insertGrouped_preserves {α : Type} (k2 : String) (x2 : α) :
    ∀ (acc : List (String × List α)) (y : α) (ky : String),
      (∃ g ∈ acc, y ∈ g.2 ∧ g.1 = ky) →
      ∃ g2 ∈ insertGrouped k2 x2 acc, y ∈ g2.2 ∧ g2.1 = ky
  | [], y, ky, h => by
    rcases h with ⟨g, hg, _⟩
    exact absurd hg (List.not_mem_nil _)
  | (k, xs) :: rest, y, ky, h => by
    rcases h with ⟨g, hg, hy, he⟩
    by_cases hk : k = k2
    · rw [insertGrouped, if_pos hk]
      rcases List.mem_cons.mp hg with h2 | h2
      · subst h2
        exact ⟨(k, xs ++ [x2]), List.mem_cons_self _ _, List.mem_append_left _ hy, he⟩
      · exact ⟨g, List.mem_cons_of_mem _ h2, hy, he⟩
    · rw [insertGrouped, if_neg hk]
      rcases List.mem_cons.mp hg with h2 | h2
      · subst h2
        exact ⟨(k, xs), List.mem_cons_self _ _, hy, he⟩
      · rcases insertGrouped_preserves k2 x2 rest y ky ⟨g, h2, hy, he⟩ with ⟨g2, hg2, hy2, he2⟩
        exact ⟨g2, List.mem_cons_of_mem _ hg2, hy2, he2⟩

theorem groupByKey_aux_complete {α : Type} (key : α → String) :
    ∀ (l : List α) (acc : List (String × List α)) (y : α),
      (y ∈ l ∨ ∃ g ∈ acc, y ∈ g.2 ∧ g.1 = key y) →
      ∃ g ∈ l.foldl (fun a x => insertGrouped (key x) x a) acc, y ∈ g.2 ∧ g.1 = key y
  | [], _, y, h => by
    rcases h with h | h
    · exact absurd h (List.not_mem_nil _)
    · exact h
  | x :: xs, acc, y, h => by
    rw [List.foldl_cons]
    apply groupByKey_aux_complete key xs
    rcases h with h | h
    · rcases List.mem_cons.mp h with h2 | h2
      · subst h2
        exact Or.inr (mem_insertGrouped_self (key y) y acc)
      · exact Or.inl h2
    · exact Or.inr (insertGrouped_preserves (key x) x acc y (key y) h)

/-- Every member of the input list lands in the group keyed by its own key. -/
theorem groupByKey_complete {α : Type} (key : α → String) (l : List α) (y : α)
    (hy : y ∈ l) : ∃ g ∈ groupByKey key l, y ∈ g.2 ∧ g.1 = key y :=
  groupByKey_aux_complete key l [] y (Or.inl hy)

theorem mem_insertSorted (s a : String) :
    ∀ l, a ∈ insertSorted s l ↔ a = s ∨ a ∈ l
  | [] => by simp [insertSorted]
  | t :: ts => by
    unfold insertSorted
    by_cases h : s ≤ t
    · simp [h]
    · rw [if_neg h]
      simp only [List.mem_cons, mem_insertSorted s a ts]
      tauto

theorem mem_sortStrings (a : String) : ∀ l, a ∈ sortStrings l ↔ a ∈ l
  | [] => Iff.rfl
  | x :: xs => by
    rw [show sortStrings (x :: xs) = insertSorted x (sortStrings xs) from rfl,
      mem_insertSorted, mem_sortStrings a xs, List.mem_cons]

theorem sheetGroups_sound (ps : List Candidate) (g : String × List Candidate)
    (q : Candidate) (hg : g ∈ sheetGroups ps) (hq : q ∈ g.2) :
    q ∈ ps ∧ q.sheetName = g.1 := by
  unfold sheetGroups at hg
  rcases List.mem_map.mp hg with ⟨sh, _, he⟩
  rw [← he] at hq
  rcases List.mem_filter.mp hq with ⟨hmem, hbe⟩
  refine ⟨hmem, ?_⟩
  rw [← he]
  exact beq_iff_eq.mp hbe

theorem sheetGroups_complete (ps : List Candidate) (q : Candidate) (hq : q ∈ ps) :
    ∃ g ∈ sheetGroups ps, g.1 = q.sheetName ∧ q ∈ g.2 := by
  refine ⟨(q.sheetName, ps.filter (fun p => p.sheetName == q.sheetName)), ?_, rfl, ?_⟩
  · unfold sheetGroups
    exact List.mem_map.mpr
      ⟨q.sheetName,
        (mem_sortStrings _ _).mpr (List.mem_dedup.mpr (List.mem_map.mpr ⟨q, hq, rfl⟩)), rfl⟩
  · exact List.mem_filter.mpr ⟨hq, by simp⟩

theorem sendAttempts_fst (transport : String → Nat → Bool) (email : String) :
    ∀ ks, (sendAttempts transport email ks).1 = ks.any (transport email)
  | [] => rfl
  | k :: ks => by
    unfold sendAttempts
    by_cases h : transport email k
    · simp [h]
    · simp [h, sendAttempts_fst transport email ks]

theorem dispatchBucket_fst_live (s : Settings) (ecfg : EmailCfg) (sig : String)
    (transport : String → Nat → Bool) (email : String) (ps : List Candidate)
    (hdr : s.dryRun = false) :
    (dispatchBucket s ecfg sig true transport email ps).1 =
      if (attemptNumbers s.maxAttempts).any (transport email) then ps else [] := by
  unfold dispatchBucket
  rw [sendAttempts_fst]
  by_cases hA : (attemptNumbers s.maxAttempts).any (transport email) = true <;>
    simp [hdr, hA]

/-- In a live run with the transport available, the dispatcher returns, per
bucket in order, the whole bucket when some attempt succeeded and nothing at
all otherwise. -/
theorem dispatch_notified_live (s : Settings) (ecfg : EmailCfg) (sig : String)
    (transport : String → Nat → Bool) (buckets : List (String × List Candidate))
    (hdr : s.dryRun = false) :
    (sendConsolidatedEmails s ecfg sig true transport buckets).1 =
      buckets.flatMap (fun b =>
        if (attemptNumbers s.maxAttempts).any (transport b.1) then b.2 else []) := by
  unfold sendConsolidatedEmails
  rcases buckets with _ | ⟨b, bs⟩
  · simp
  · simp only [Bool.not_true, Bool.false_and, Bool.false_eq_true, if_false,
      List.isEmpty_cons]
    rw [List.flatMap_def]
    refine congrArg List.flatten (List.map_congr_left ?_)
    intro x _
    exact dispatchBucket_fst_live s ecfg sig transport x.1 x.2 hdr

theorem workbookRun_fst_dry (s : Settings) (env : StoreEnv) (today : Int)
    (wb : String) (ps : List Candidate) (hdr : s.dryRun = true) :
    (workbookRun s env today wb ps).1 = [] := by
  simp [workbookRun, hdr]

/-- A dry run performs no store operation at all. -/
theorem updateOps_dry (s : Settings) (env : StoreEnv) (updates : List Candidate)
    (today : Int) (hdr : s.dryRun = true) :
    (updateExcelSheets s env updates today).1 = [] := by
  unfold updateExcelSheets
  by_cases h : updates.isEmpty
  · simp [h]
  · simp only [h, Bool.false_eq_true, if_false]
    apply List.flatten_eq_nil_iff.mpr
    intro x hx
    rcases List.mem_map.mp hx with ⟨g, _, he⟩
    rw [← he, workbookRun_fst_dry s env today g.1 g.2 hdr]

/-- Every write the updater performs targets the source location of one of the
candidates it was given. -/
theorem updateOps_write_sound (s : Settings) (env : StoreEnv)
    (updates : List Candidate) (today : Int) (pth sh : String) (row col : Nat)
    (v : WriteVal)
    (hop : StoreOp.write pth sh row col v ∈ (updateExcelSheets s env updates today).1) :
    ∃ q ∈ updates, q.workbookPath = pth ∧ q.sheetName = sh ∧ q.rowIndexDf + 2 = row := by
  unfold updateExcelSheets at hop
  by_cases h : updates.isEmpty
  · simp [h] at hop
  · simp only [h, Bool.false_eq_true, if_false] at hop
    rcases List.mem_flatten.mp hop with ⟨ops1, hops1, hmem⟩
    rcases List.mem_map.mp hops1 with ⟨g, hg, he⟩
    rw [← he] at hmem
    unfold workbookRun at hmem
    split at hmem
    · simp at hmem
    · have hbackup : ∀ w, StoreOp.write pth sh row col v ∈ backupOps s env w → False := by
        intro w hw
        unfold backupOps at hw
        split at hw
        · simp at hw
        · simp at hw
      split at hmem
      · exact absurd hmem (fun hw => hbackup g.1 hw)
      · simp only [List.mem_append] at hmem
        rcases hmem with (hmem | hmem) | hmem
        · exact absurd hmem (fun hw => hbackup g.1 hw)
        · unfold sheetWriteOps at hmem
          rcases List.mem_flatMap.mp hmem with ⟨grp, hgrp, hw⟩
          split at hw
          · rcases List.mem_flatMap.mp hw with ⟨q, hq, hwq⟩
            have hgq := sheetGroups_sound g.2 grp q hgrp hq
            have hup := groupByKey_sound (fun p => p.workbookPath) updates g q hg hgq.1
            simp only [itemWrites, List.mem_cons, List.mem_singleton,
              List.not_mem_nil, or_false] at hwq
            have hup2 : q.workbookPath = g.1 := hup.2
            rcases hwq with hwq | hwq <;>
              · injection hwq with e1 e2 e3 e4 e5
                exact ⟨q, hup.1, by rw [hup2]; exact e1.symm, e2.symm, e3.symm⟩
          · simp at hw
        · simp only [List.mem_singleton] at hmem
          cases hmem

/-- Every given candidate whose workbook opens and whose sheet exists gets its
last-correspondence cell written in a live run. -/
theorem updateOps_write_complete (s : Settings) (env : StoreEnv)
    (updates : List Candidate) (today : Int) (q : Candidate)
    (hdr : s.dryRun = false) (hq : q ∈ updates)
    (hopen : env.openable q.workbookPath = true)
    (hsheet : env.hasSheet q.workbookPath q.sheetName = true) :
    StoreOp.write q.workbookPath q.sheetName (q.rowIndexDf + 2) (q.lastCorrColDfIdx + 1)
        (.dateStr (strftimeMDY today)) ∈
      (updateExcelSheets s env updates today).1 := by
  have hne : updates.isEmpty = false := by
    cases updates
    · exact absurd hq (List.not_mem_nil _)
    · rfl
  unfold updateExcelSheets
  simp only [hne, Bool.false_eq_true, if_false]
  rcases groupByKey_complete (fun p => p.workbookPath) updates q hq with ⟨g, hg, hqg, hkey⟩
  apply List.mem_flatten.mpr
  refine ⟨(workbookRun s env today g.1 g.2).1, List.mem_map.mpr ⟨g, hg, rfl⟩, ?_⟩
  unfold workbookRun
  simp only [hdr, Bool.false_eq_true, if_false]
  rw [hkey]
  simp only [hopen, Bool.not_true, Bool.false_eq_true, if_false]
  apply List.mem_append_left
  apply List.mem_append_right
  unfold sheetWriteOps
  apply List.mem_flatMap.mpr
  rcases sheetGroups_complete g.2 q hqg with ⟨grp, hgrp, hname, hqgrp⟩
  refine ⟨grp, hgrp, ?_⟩
  rw [hname]
  simp only [hsheet, if_true]
  apply List.mem_flatMap.mpr
  exact ⟨q, hqgrp, List.mem_cons_self _ _⟩

theorem mem_attemptNumbers (k m : Nat) : k ∈ attemptNumbers m ↔ 1 ≤ k ∧ k ≤ m := by
  unfold attemptNumbers
  simp only [List.mem_map, List.mem_range]
  constructor
  · rintro ⟨j, hj, rfl⟩
    omega
  · rintro ⟨h1, h2⟩
    exact ⟨k - 1, by omega, by omega⟩

/-! ### Claim theorems. -/

/-- C1: for a scanned record with a valid submission date, a usable e-mail and
no disposition flag set: at stage 0 it is emitted as a candidate exactly when
the elapsed days from its reference date (last correspondence if present,
otherwise the submission date) reach `DaysFirstFollowUp`; at stage ≥ 1 it is
emitted exactly when it has a last-correspondence date whose elapsed days
reach `DaysSubsequentFollowUps`. -/
theorem eligibility_by_stage_thresholds (cfg : ScanThresholds) (today : Int)
    (wbPath sheetName : String) (rowIdx lcIdx stIdx : Nat) (r : Row) (sd stage : Int)
    (hsd : excelDateToDatetime r.dateProposalSubmitted = some sd)
    (hyr : ¬ yearOf sd < 2000)
    (hem : emailUsable r.contactEmail = true)
    (hfl : dispositionSet r = false)
    (hst : pyInt? r.followUpStage = some stage) :
    (stage = 0 →
      ((processRow cfg today wbPath sheetName rowIdx lcIdx stIdx r).isCand = true ↔
        cfg.daysFirstFollowUp ≤ today - (lcDateOf r).getD sd)) ∧
    (1 ≤ stage →
      ((processRow cfg today wbPath sheetName rowIdx lcIdx stIdx r).isCand = true ↔
        ∃ l, lcDateOf r = some l ∧ cfg.daysSubsequentFollowUps ≤ today - l)) := by
  unfold processRow
  rw [hsd]
  simp only [hyr, if_false, hem, Bool.not_true, Bool.false_eq_true, hfl, hst]
  constructor
  · intro h0
    simp only [h0, if_pos rfl]
    by_cases hth : cfg.daysFirstFollowUp ≤ today - (lcDateOf r).getD sd
    · simp [hth, RowOutcome.isCand]
    · simp [hth, RowOutcome.isCand]
  · intro h1
    have h0 : ¬ (stage = 0) := by omega
    have hpos : 0 < stage := by omega
    simp only [h0, if_false, hpos, if_pos]
    rcases hlc : lcDateOf r with _ | l
    · simp [RowOutcome.isCand]
    · by_cases hth : cfg.daysSubsequentFollowUps ≤ today - l
      · simp [hth, RowOutcome.isCand]
      · simp [hth, RowOutcome.isCand]

/-- Witness for C1: a stage-0 row submitted long ago is emitted. -/
theorem eligibility_by_stage_thresholds_witness :
    (processRow exTh exToday "wb" "Feb" 0 1 9 baseRow).isCand = true := by
  have h := eligibility_by_stage_thresholds exTh exToday "wb" "Feb" 0 1 9 baseRow 17431 0
    (by decide) (by decide) (by decide) (by decide) (by decide)
  exact (h.1 rfl).mpr (by decide)

/-- C2: every emitted candidate's snippet index is the saturating function of
its stage (0, 1, then 2 for every stage ≥ 2) and its next-stage value is the
record's stage plus exactly one. -/
theorem snippet_saturation_and_next_stage (cfg : ScanThresholds) (today : Int)
    (wbPath sheetName : String) (rowIdx lcIdx stIdx : Nat) (r : Row) (stage : Int)
    (em : String) (c : Candidate)
    (hst : pyInt? r.followUpStage = some stage)
    (hc : processRow cfg today wbPath sheetName rowIdx lcIdx stIdx r = .candidate em c) :
    c.emailSnippetKey = (if stage = 0 then 0 else if stage = 1 then 1 else 2) ∧
      c.newFollowUpStage = stage + 1 := by
  obtain ⟨sd, st2, hsd2, hst2, hem2, hcand⟩ :=
    processRow_candidate_spec cfg today wbPath sheetName rowIdx lcIdx stIdx r em c hc
  rw [hst] at hst2
  injection hst2 with hst2
  subst hst2
  rw [hcand]
  exact ⟨rfl, rfl⟩

/-- Witness for C2: a stage-4 eligible record gets snippet index 2 and next
stage 5. -/
theorem snippet_saturation_and_next_stage_witness :
    processRow exTh exToday "wb" "Feb" 0 1 9 stage4Row =
        .candidate "jane.doe@example.com" cand45 ∧
      cand45.emailSnippetKey = 2 ∧ cand45.newFollowUpStage = 5 := by
  have hc : processRow exTh exToday "wb" "Feb" 0 1 9 stage4Row =
      .candidate "jane.doe@example.com" cand45 := by decide
  have h := snippet_saturation_and_next_stage exTh exToday "wb" "Feb" 0 1 9 stage4Row 4
    "jane.doe@example.com" cand45 (by decide) hc
  exact ⟨hc, by simpa using h.1, h.2⟩

/-- C8: a record at stage ≥ 1 with no (or unparseable) last-correspondence
date is not emitted: the row's outcome is exactly the logged anomaly skip, and
the scan goes on with the remaining rows. -/
theorem stage_anomaly_logged_skip (cfg : ScanThresholds) (today : Int)
    (wbPath sheetName : String) (lcIdx stIdx : Nat) (r : Row) (sd stage : Int)
    (hsd : excelDateToDatetime r.dateProposalSubmitted = some sd)
    (hyr : ¬ yearOf sd < 2000)
    (hem : emailUsable r.contactEmail = true)
    (hfl : dispositionSet r = false)
    (hst : pyInt? r.followUpStage = some stage)
    (h1 : 1 ≤ stage)
    (hlc : lcDateOf r = none) :
    (∀ rowIdx, processRow cfg today wbPath sheetName rowIdx lcIdx stIdx r =
      .skipStageAnomaly stage) ∧
    (∀ k rest, scanRowsFrom cfg today wbPath sheetName lcIdx stIdx k (r :: rest) =
      .row sheetName k (.skipStageAnomaly stage) ::
        scanRowsFrom cfg today wbPath sheetName lcIdx stIdx (k + 1) rest) := by
  have h0 : ¬ (stage = 0) := by omega
  have hpos : 0 < stage := by omega
  have hmain : ∀ rowIdx, processRow cfg today wbPath sheetName rowIdx lcIdx stIdx r =
      .skipStageAnomaly stage := by
    intro rowIdx
    unfold processRow
    rw [hsd]
    simp [hyr, hem, hfl, hst, hlc, h0, hpos]
  refine ⟨hmain, fun k rest => ?_⟩
  simp [scanRowsFrom, hmain k]

/-- Witness for C8: a stage-2 row with a blank last-correspondence cell. -/
theorem stage_anomaly_logged_skip_witness :
    processRow exTh exToday "wb" "Feb" 0 1 9 stage2NoLcRow = .skipStageAnomaly 2 := by
  have h := stage_anomaly_logged_skip exTh exToday "wb" "Feb" 1 9 stage2NoLcRow 17431 2
    (by decide) (by decide) (by decide) (by decide) (by decide) (by decide) (by decide)
  exact h.1 0

/-- C9 (code behaviour at the failing input): a row whose stage cell is blank
(NaN) hits the `int(...)` ValueError and is skipped by the per-row exception
handler instead of being treated as stage 0 — the same row with stage 0 would
have been emitted. -/
theorem absent_stage_raises_rowError :
    processRow exTh exToday "wb" "Feb" 0 1 9 blankStageRow = .rowError ∧
      (processRow exTh exToday "wb" "Feb" 0 1 9
          { blankStageRow with followUpStage := .num 0 }).isCand = true := by
  decide

/-- C10: an emitted candidate's greeting first name is the literal "there"
when the trimmed display name is empty and the first whitespace-separated
token of the display name otherwise, and the rendered body's greeting is the
greeting template applied to that first name. -/
theorem greeting_uses_first_name_or_there (cfg : ScanThresholds) (today : Int)
    (wbPath sheetName : String) (rowIdx lcIdx stIdx : Nat) (r : Row)
    (em : String) (c : Candidate)
    (hc : processRow cfg today wbPath sheetName rowIdx lcIdx stIdx r = .candidate em c) :
    c.contactFirstName =
        (if pyStrip (pyStr r.contactName) == "" then "there"
          else (pySplitWs (pyStrip (pyStr r.contactName))).headD "") ∧
      ∀ ecfg sig rest, renderBody ecfg sig (c :: rest) =
        renderGreeting ecfg c.contactFirstName ++ renderBodyTail ecfg sig (c :: rest) := by
  obtain ⟨sd, st2, hsd2, hst2, hem2, hcand⟩ :=
    processRow_candidate_spec cfg today wbPath sheetName rowIdx lcIdx stIdx r em c hc
  constructor
  · rw [hcand]
    simp [mkCandidate, firstNameOf]
  · intro ecfg sig rest
    rfl

/-- Witness for C10: a whitespace-only contact name yields "there". -/
theorem greeting_uses_first_name_or_there_witness :
    ∃ em c, processRow exTh exToday "wb" "Feb" 0 1 9 noNameRow = .candidate em c ∧
      c.contactFirstName = "there" := by
  refine ⟨"jane.doe@example.com", _, rfl, ?_⟩
  have h := greeting_uses_first_name_or_there exTh exToday "wb" "Feb" 0 1 9 noNameRow
    "jane.doe@example.com" _ rfl
  rw [h.1]
  decide

/-- Counterexample to C5 as stated: a store whose first sheet has a missing
required column still yields a candidate from its second sheet, so the
remainder of the store is not skipped. -/
theorem missing_columns_store_skip_cex :
    badSheet.missingCols ≠ [] ∧ badSheet.name ∈ exMonths ∧
      mixedStore.sheets = [badSheet, goodSheet] ∧
      (candidatesOfEvents (scanStore exTh exToday exMonths mixedStore)).map
          (fun pr => pr.2.sheetName) =
        ["Feb"] := by
  decide

/-- C5 (amended): a sheet with missing required columns is skipped with an
error log entry, and only that sheet: the sheets before and after it in the
same store are scanned exactly as without it. -/
theorem missing_columns_skip_section_only (cfg : ScanThresholds) (today : Int)
    (validMonths : List String) (p : String) (pre post : List Sheet) (bad : Sheet)
    (hbad : bad.missingCols ≠ [])
    (hvm : bad.name ∈ validMonths) :
    scanStore cfg today validMonths ⟨p, pre ++ bad :: post⟩ =
      scanStore cfg today validMonths ⟨p, pre⟩ ++
        [.sheetMissingCols bad.name bad.missingCols] ++
        scanStore cfg today validMonths ⟨p, post⟩ := by
  unfold scanStore
  simp [hvm, hbad]

/-- Witness for the amended C5 at the concrete mixed store. -/
theorem missing_columns_skip_section_only_witness :
    scanStore exTh exToday exMonths mixedStore =
      scanStore exTh exToday exMonths ⟨"wb", []⟩ ++
        [.sheetMissingCols "Jan" ["Value"]] ++
        scanStore exTh exToday exMonths ⟨"wb", [goodSheet]⟩ := by
  have h := missing_columns_skip_section_only exTh exToday exMonths "wb" [] [goodSheet]
    badSheet (by decide) (by decide)
  exact h

/-- Counterexample to C6 as stated: a value cell `"TBD"` fails float
formatting, and the resulting candidate's value string is `"TBD"`, not the
empty string. -/
theorem value_format_fallback_cex :
    pyFloat? tbdValueRow.value = none ∧
      (processRow exTh exToday "wb" "Feb" 0 1 9 tbdValueRow).valueStr? = some "TBD" := by
  decide

/-- C6 (amended): when the monetary value is non-null, nonempty after
trimming, and fails to convert as a number, the emitted candidate's value
string degrades to the raw trimmed string form of the cell (no error
propagates and the row is still emitted unchanged otherwise). -/
theorem value_format_failure_raw_string (cfg : ScanThresholds) (today : Int)
    (wbPath sheetName : String) (rowIdx lcIdx stIdx : Nat) (r : Row)
    (em : String) (c : Candidate)
    (hc : processRow cfg today wbPath sheetName rowIdx lcIdx stIdx r = .candidate em c)
    (hna : pyNotna r.value = true)
    (hne : ¬ pyStrip (pyStr r.value) = "")
    (hf : pyFloat? r.value = none) :
    c.valueStr = pyStrip (pyStr r.value) := by
  obtain ⟨sd, st2, hsd2, hst2, hem2, hcand⟩ :=
    processRow_candidate_spec cfg today wbPath sheetName rowIdx lcIdx stIdx r em c hc
  rw [hcand]
  simp [mkCandidate, valueStrOf, hna, hne, hf]

/-- Witness for the amended C6 at the `"TBD"` row. -/
theorem value_format_failure_raw_string_witness :
    ∃ em c, processRow exTh exToday "wb" "Feb" 0 1 9 tbdValueRow = .candidate em c ∧
      c.valueStr = "TBD" := by
  refine ⟨"jane.doe@example.com", _, rfl, ?_⟩
  have h := value_format_failure_raw_string exTh exToday "wb" "Feb" 0 1 9 tbdValueRow
    "jane.doe@example.com" _ rfl (by decide) (by decide) (by decide)
  rw [h]
  decide

/-- Counterexample to C7 as stated: `"a@b"` is non-empty and contains an
`"@"`, yet the scanner skips the record for e-mail invalidity (the code also
demands a `"."`). -/
theorem email_at_only_cex :
    normalizedEmail noDotEmailRow.contactEmail = "a@b" ∧
      ¬ normalizedEmail noDotEmailRow.contactEmail = "" ∧
      charIn '@' (normalizedEmail noDotEmailRow.contactEmail) = true ∧
      processRow exTh exToday "wb" "Feb" 0 1 9 noDotEmailRow = .skipInvalidEmail := by
  decide

/-- C7 (amended): the trimmed, lowercased contact e-mail is usable exactly
when it is non-empty and contains both an `"@"` and a `"."`; a record with a
valid submission date is skipped for e-mail invalidity exactly when that
usability test fails. -/
theorem email_usable_iff_at_and_dot (cfg : ScanThresholds) (today : Int)
    (wbPath sheetName : String) (rowIdx lcIdx stIdx : Nat) (r : Row) (sd : Int)
    (hsd : excelDateToDatetime r.dateProposalSubmitted = some sd)
    (hyr : ¬ yearOf sd < 2000) :
    (emailUsable r.contactEmail = true ↔
      (¬ normalizedEmail r.contactEmail = "" ∧
        charIn '@' (normalizedEmail r.contactEmail) = true ∧
        charIn '.' (normalizedEmail r.contactEmail) = true)) ∧
    ((processRow cfg today wbPath sheetName rowIdx lcIdx stIdx r = .skipInvalidEmail) ↔
      emailUsable r.contactEmail = false) := by
  constructor
  · simp [emailUsable, and_assoc]
  · by_cases he : emailUsable r.contactEmail = true
    · rw [he]
      simp only [Bool.true_eq_false, iff_false]
      intro hx
      unfold processRow at hx
      rw [hsd] at hx
      simp only [hyr, if_false, he, Bool.not_true, Bool.false_eq_true] at hx
      repeat' split at hx
      all_goals cases hx
    · rw [Bool.not_eq_true] at he
      rw [he]
      simp only [iff_true]
      unfold processRow
      rw [hsd]
      simp [hyr, he]

/-- Witness for the amended C7 at a row with a usable e-mail. -/
theorem email_usable_iff_at_and_dot_witness :
    emailUsable baseRow.contactEmail = true ∧
      ¬ processRow exTh exToday "wb" "Feb" 0 1 9 baseRow = .skipInvalidEmail := by
  have h := email_usable_iff_at_and_dot exTh exToday "wb" "Feb" 0 1 9 baseRow 17431
    (by decide) (by decide)
  constructor
  · exact h.1.mpr (by decide)
  · intro hx
    have := h.2.mp hx
    rw [h.1.mpr (by decide)] at this
    cases this

/-- C3: when delivery to one recipient fails on every retry attempt, none of
that recipient's candidates reach the state updater — no cell of theirs is
written — while any recipient with a successful attempt still has all its
candidates returned and their cells written. -/
theorem failed_recipient_excluded_no_writes (s : Settings) (ecfg : EmailCfg)
    (sig : String) (transport : String → Nat → Bool)
    (buckets : List (String × List Candidate)) (env : StoreEnv) (today : Int)
    (r : String) (ps : List Candidate) (p : Candidate)
    (hdr : s.dryRun = false)
    (hmem : (r, ps) ∈ buckets)
    (hfail : ∀ k, 1 ≤ k → k ≤ s.maxAttempts → transport r k = false)
    (hp : p ∈ ps)
    (hsep : ∀ b ∈ buckets, b.1 ≠ r → ∀ q ∈ b.2,
      ¬(q.workbookPath = p.workbookPath ∧ q.sheetName = p.sheetName ∧
        q.rowIndexDf = p.rowIndexDf)) :
    p ∉ (sendConsolidatedEmails s ecfg sig true transport buckets).1 ∧
      writesAt (updateExcelSheets s env
          (sendConsolidatedEmails s ecfg sig true transport buckets).1 today).1 p = [] ∧
      ∀ b ∈ buckets, (∃ k, 1 ≤ k ∧ k ≤ s.maxAttempts ∧ transport b.1 k = true) →
        ∀ q ∈ b.2, q ∈ (sendConsolidatedEmails s ecfg sig true transport buckets).1 ∧
          (env.openable q.workbookPath = true →
            env.hasSheet q.workbookPath q.sheetName = true →
            writesAt (updateExcelSheets s env
                (sendConsolidatedEmails s ecfg sig true transport buckets).1 today).1 q ≠
              []) := by
  have hnot := dispatch_notified_live s ecfg sig transport buckets hdr
  have hmemN : ∀ x, x ∈ (sendConsolidatedEmails s ecfg sig true transport buckets).1 ↔
      ∃ b ∈ buckets, (attemptNumbers s.maxAttempts).any (transport b.1) = true ∧ x ∈ b.2 := by
    intro x
    rw [hnot, List.mem_flatMap]
    constructor
    · rintro ⟨b, hb, hx⟩
      by_cases hA : (attemptNumbers s.maxAttempts).any (transport b.1) = true
      · exact ⟨b, hb, hA, by rwa [if_pos hA] at hx⟩
      · rw [if_neg hA] at hx
        exact absurd hx (List.not_mem_nil _)
    · rintro ⟨b, hb, hA, hx⟩
      exact ⟨b, hb, by rwa [if_pos hA]⟩
  have hNr : (attemptNumbers s.maxAttempts).any (transport r) = false := by
    apply Bool.eq_false_iff.mpr
    intro hA
    rcases List.any_eq_true.mp hA with ⟨k, hk, htr⟩
    rcases (mem_attemptNumbers k s.maxAttempts).mp hk with ⟨h1, h2⟩
    rw [hfail k h1 h2] at htr
    cases htr
  have hpnot : p ∉ (sendConsolidatedEmails s ecfg sig true transport buckets).1 := by
    intro hx
    rcases (hmemN p).mp hx with ⟨b, hb, hA, hpb⟩
    by_cases hbr : b.1 = r
    · rw [hbr, hNr] at hA
      cases hA
    · exact hsep b hb hbr p hpb ⟨rfl, rfl, rfl⟩
  have hwp : writesAt (updateExcelSheets s env
      (sendConsolidatedEmails s ecfg sig true transport buckets).1 today).1 p = [] := by
    apply List.eq_nil_iff_forall_not_mem.mpr
    intro op hop2
    rcases List.mem_filter.mp hop2 with ⟨hopmem, hpred⟩
    cases op with
    | backup pth => cases hpred
    | save pth => cases hpred
    | write pth sh row col v =>
      simp only [Bool.and_eq_true, beq_iff_eq] at hpred
      rcases updateOps_write_sound s env _ today pth sh row col v hopmem with
        ⟨q, hqN, hq1, hq2, hq3⟩
      rcases (hmemN q).mp hqN with ⟨b, hb, hA, hqb⟩
      by_cases hbr : b.1 = r
      · rw [hbr, hNr] at hA
        cases hA
      · have e3 : q.rowIndexDf + 2 = p.rowIndexDf + 2 := hq3.trans hpred.2
        exact hsep b hb hbr q hqb
          ⟨hq1.trans hpred.1.1, hq2.trans hpred.1.2, by omega⟩
  refine ⟨hpnot, hwp, ?_⟩
  intro b hb hex q hq
  rcases hex with ⟨k, h1, h2, htr⟩
  have hA : (attemptNumbers s.maxAttempts).any (transport b.1) = true :=
    List.any_eq_true.mpr ⟨k, (mem_attemptNumbers k s.maxAttempts).mpr ⟨h1, h2⟩, htr⟩
  have hqN : q ∈ (sendConsolidatedEmails s ecfg sig true transport buckets).1 :=
    (hmemN q).mpr ⟨b, hb, hA, hq⟩
  refine ⟨hqN, fun hopen hsheet => ?_⟩
  have hw := updateOps_write_complete s env _ today q hdr hqN hopen hsheet
  intro hnil
  have hin : StoreOp.write q.workbookPath q.sheetName (q.rowIndexDf + 2)
      (q.lastCorrColDfIdx + 1) (.dateStr (strftimeMDY today)) ∈
      writesAt (updateExcelSheets s env
        (sendConsolidatedEmails s ecfg sig true transport buckets).1 today).1 q :=
    List.mem_filter.mpr ⟨hw, by simp⟩
  rw [hnil] at hin
  exact absurd hin (List.not_mem_nil _)

/-- Witness for C3: Alice's delivery always fails, Bob's succeeds; Alice's
candidate is dropped and unwritten, Bob's is returned and written. -/
theorem failed_recipient_excluded_no_writes_witness :
    candA ∉ (sendConsolidatedEmails liveS exEmailCfg "" true transportBOnly bucketsAB).1 ∧
      candB ∈ (sendConsolidatedEmails liveS exEmailCfg "" true transportBOnly bucketsAB).1 ∧
      writesAt (updateExcelSheets liveS allEnv
          (sendConsolidatedEmails liveS exEmailCfg "" true transportBOnly bucketsAB).1
          exToday).1 candA = [] ∧
      writesAt (updateExcelSheets liveS allEnv
          (sendConsolidatedEmails liveS exEmailCfg "" true transportBOnly bucketsAB).1
          exToday).1 candB ≠ [] := by
  have h := failed_recipient_excluded_no_writes liveS exEmailCfg "" transportBOnly
    bucketsAB allEnv exToday "alice@x.com" [candA] candA rfl
    (by decide) (fun k _ _ => rfl) (by decide) (by decide)
  have hb := h.2.2 ("bob@y.com", [candB]) (by decide)
    ⟨1, by decide, by decide, rfl⟩ candB (by decide)
  exact ⟨h.1, hb.1, h.2.1, hb.2 rfl rfl⟩

/-- C4: in dry-run mode the dispatcher makes no transport call and returns
every candidate as if notified while logging each would-send decision, and the
state updater performs no store operation while logging each would-update
decision. -/
theorem dry_run_no_transport_no_writes (s : Settings) (hdr : s.dryRun = true) :
    (∀ (ecfg : EmailCfg) (sig : String) (outlookOk : Bool)
        (transport : String → Nat → Bool) (buckets : List (String × List Candidate)),
      (sendConsolidatedEmails s ecfg sig outlookOk transport buckets).1 =
          buckets.flatMap Prod.snd ∧
        (∀ e ∈ (sendConsolidatedEmails s ecfg sig outlookOk transport buckets).2,
          e.isTransportCall = false) ∧
        (∀ b ∈ buckets,
          DispatchEvent.wouldSend b.1
              (renderSubject ecfg (b.2.map (fun p => p.projectName))) ∈
            (sendConsolidatedEmails s ecfg sig outlookOk transport buckets).2)) ∧
    (∀ (env : StoreEnv) (updates : List Candidate) (today : Int),
      (updateExcelSheets s env updates today).1 = [] ∧
        ∀ q ∈ updates,
          UpdateEvent.wouldUpdate q.workbookPath q.sheetName (q.rowIndexDf + 2)
              q.projectName q.newFollowUpStage ∈
            (updateExcelSheets s env updates today).2) := by
  constructor
  · intro ecfg sig outlookOk transport buckets
    unfold sendConsolidatedEmails
    simp only [hdr, Bool.not_true, Bool.and_false, Bool.false_eq_true, if_false]
    rcases buckets with _ | ⟨b, bs⟩
    · refine ⟨rfl, ?_, ?_⟩
      · intro e he
        simp only [List.isEmpty_nil, if_true, List.mem_singleton] at he
        subst he
        rfl
      · intro b hb
        exact absurd hb (List.not_mem_nil _)
    · simp only [List.isEmpty_cons, Bool.false_eq_true, if_false]
      refine ⟨?_, ?_, ?_⟩
      · rw [List.flatMap_def]
        refine congrArg List.flatten (List.map_congr_left ?_)
        intro x _
        simp [dispatchBucket, hdr]
      · intro e he
        rcases List.mem_flatten.mp he with ⟨evs, hevs, hein⟩
        rcases List.mem_map.mp hevs with ⟨x, _, hex⟩
        rw [← hex] at hein
        simp only [dispatchBucket, hdr, if_true] at hein
        rcases List.mem_cons.mp hein with h2 | h2
        · subst h2
          rfl
        · rcases List.mem_singleton.mp h2 with rfl
          rfl
      · intro b2 hb2
        apply List.mem_flatten.mpr
        refine ⟨_, List.mem_map.mpr ⟨b2, hb2, rfl⟩, ?_⟩
        simp only [dispatchBucket, hdr, if_true]
        exact List.mem_cons_self _ _
  · intro env updates today
    refine ⟨updateOps_dry s env updates today hdr, ?_⟩
    intro q hq
    have hne : updates.isEmpty = false := by
      cases updates
      · exact absurd hq (List.not_mem_nil _)
      · rfl
    unfold updateExcelSheets
    simp only [hne, Bool.false_eq_true, if_false]
    rcases groupByKey_complete (fun p => p.workbookPath) updates q hq with ⟨g, hg, hqg, hkey⟩
    apply List.mem_flatten.mpr
    refine ⟨(workbookRun s env today g.1 g.2).2, List.mem_map.mpr ⟨g, hg, rfl⟩, ?_⟩
    unfold workbookRun
    simp only [hdr, if_true]
    apply List.mem_map.mpr
    refine ⟨q, hqg, ?_⟩
    have hkey2 : g.1 = q.workbookPath := hkey
    simp [hkey2]

/-- Witness for C4: a dry run over two buckets returns both candidates and the
updater performs no operation. -/
theorem dry_run_no_transport_no_writes_witness :
    (sendConsolidatedEmails dryS exEmailCfg "" true transportNone bucketsAB).1 =
        [candA, candB] ∧
      (updateExcelSheets dryS allEnv [candA, candB] exToday).1 = [] := by
  have h := dry_run_no_transport_no_writes dryS rfl
  have h1 := (h.1 exEmailCfg "" true transportNone bucketsAB).1
  have h2 := (h.2 allEnv [candA, candB] exToday).1
  refine ⟨?_, h2⟩
  rw [h1]
  decide

end FollowUp
